import Mathlib

/-!
Shallow embedding of the bus pirate driver (package bp: bp.go, i2c.go, modes.go).

The serial connection (`Conn` in the Go source) is modelled as a deterministic
oracle: a script of read outcomes consumed one entry per read request, a script
of per-call write failures, a script of per-call SetReadParams failures, and a
log of every payload passed to Write.  `io.ReadFull` for n bytes consumes one
read outcome: a `data bs` entry with `bs.length = n` is a successful full read,
a `data` entry of the wrong length is a non-timeout I/O error, `timeout` is a
timed-out read and an exhausted script also times out (a quiescent line),
`ioError` is a non-timeout I/O error.

Each Go method becomes a state-passing function `BusPirate → Except Err α ×
BusPirate`.  Error messages are represented by the enumeration `ErrMsg`
(one constructor per distinct message produced by the source).
-/

namespace BP

/-- Decidable equality for Except, needed to evaluate runs by decide. -/
instance instDecEqExcept {ε α : Type} [DecidableEq ε] [DecidableEq α] :
    DecidableEq (Except ε α) := fun a b =>
  match a, b with
  | .ok x, .ok y =>
    decidable_of_iff (x = y) ⟨fun h => by rw [h], fun h => by injection h⟩
  | .error x, .error y =>
    decidable_of_iff (x = y) ⟨fun h => by rw [h], fun h => by injection h⟩
  | .ok _, .error _ => isFalse (fun h => by injection h)
  | .error _, .ok _ => isFalse (fun h => by injection h)

/-- Mode constants from modes.go (iota order). -/
def MODE_CLOSED : Nat := 0

def MODE_UNKNOWN : Nat := 1

def MODE_BITBANG : Nat := 2

def MODE_SPI : Nat := 3

def MODE_I2C : Nat := 4

def MODE_UART : Nat := 5

/-- MODE_1WIRE in the source (Lean identifiers cannot start with a digit). -/
def MODE_ONEWIRE : Nat := 6

def MODE_RAW : Nat := 7

/-- Outcome of a single read request against the transport oracle. -/
inductive ReadOutcome where
  | data (bs : List Nat)
  | timeout
  | ioError
deriving DecidableEq

/-- The transport oracle standing for the Go `Conn` interface. -/
structure Conn where
  reads : List ReadOutcome
  writeFails : List Bool
  srpFails : List Bool
  written : List (List Nat)
deriving DecidableEq

/-- One `c.Write(payload)` call: consumes the next write-failure flag and logs
the payload; returns true when the write fails. -/
def Conn.write (c : Conn) (payload : List Nat) : Bool × Conn :=
  (c.writeFails.headD false,
   { c with writeFails := c.writeFails.tail, written := c.written ++ [payload] })

/-- Result of `io.ReadFull` against the oracle. -/
inductive ReadFullResult where
  | ok (bs : List Nat)
  | timeoutErr
  | ioErr
deriving DecidableEq

/-- One `io.ReadFull(c, buf[0:n])` call: consumes the next read outcome. -/
def Conn.readFull (c : Conn) (n : Nat) : ReadFullResult × Conn :=
  match c.reads with
  | [] => (.timeoutErr, c)
  | o :: rest =>
    (match o with
     | .data bs => if bs.length = n then .ok bs else .ioErr
     | .timeout => .timeoutErr
     | .ioError => .ioErr,
     { c with reads := rest })

/-- One `c.SetReadParams(..)` call: consumes the next failure flag. -/
def Conn.setReadParams (c : Conn) : Bool × Conn :=
  (c.srpFails.headD false, { c with srpFails := c.srpFails.tail })

/-- The distinct error messages produced by the source, one constructor per
formatted string. -/
inductive ErrMsg where
  | cannotEnterBitbangFromUnknown
  | cannotLeaveUnknownMode
  | couldNotEnterBitbangToClose
  | errorReadingResponse
  | expectedBBIOx
  | onlyBBIOVersion1
  | expectedI2Cx
  | onlyI2CVersion1
  | responseNoBBIOStart
  | protocolMismatch
  | noSuitableResponse
  | unexpectedResponse
  | readFromBusPirate
  | closeExpected01
  | wtrTooManyBytes
  | only7BitAddressing
  | transactWriteTooBig
  | transactReadTooBig
  | i2cModeOnlyFromBitbang
  | notInI2CMode
deriving DecidableEq

/-- The I2C operation names used by the `i2cerror` wrapper in i2c.go. -/
inductive I2COp where
  | start
  | stop
  | readByteOp
  | writeByteOp
deriving DecidableEq

/-- Error values of the embedded driver.  `modeError` is the Go `ModeError`
string type; `errorf` covers `fmt.Errorf` / `errors.New`; `ioErr` is an error
coming from the transport (with its timeout flag); `wrapped` is a
`fmt.Errorf("...: %v", err)` wrapper; `i2c` is the `i2cerror` struct. -/
inductive Err where
  | modeError (m : ErrMsg)
  | errorf (m : ErrMsg)
  | ioErr (isTimeout : Bool)
  | wrapped (m : ErrMsg) (e : Err)
  | i2c (op : I2COp) (e : Err)
  | nackReceived
  | noSuchDevice
deriving DecidableEq

/-- Whether an error is a `ModeError`. -/
def Err.isModeError : Err → Bool
  | .modeError _ => true
  | _ => false

/-- The `notI2CMode` sentinel of i2c.go. -/
def notI2CMode : Err := .modeError .notInI2CMode

/-- The BusPirate session state (bp.go): connection, mode and mode version. -/
structure BusPirate where
  c : Conn
  mode : Nat
  modeversion : Nat
deriving DecidableEq

/-- modes.go clearMode: force the session to unknown mode. -/
def BusPirate.clearMode (bp : BusPirate) : BusPirate :=
  { bp with mode := MODE_UNKNOWN, modeversion := 0 }

/-- modes.go GetMode: the active mode and the mode version. -/
def BusPirate.GetMode (bp : BusPirate) : Nat × Nat :=
  (bp.mode, bp.modeversion)

/-- bp.go writeByte.  The source builds an error value when the transport
write fails but discards it and returns nil, so this embedding always
returns ok (mirroring the source faithfully, including that slip). -/
def BusPirate.writeByte (bp : BusPirate) (b : Nat) : Except Err Unit × BusPirate :=
  let wc := bp.c.write [b]
  (Except.ok (), { bp with c := wc.2 })

/-- bp.go readByte: read one byte, error on a short read or transport error
(the source wraps the error text with errors.New). -/
def BusPirate.readByte (bp : BusPirate) : Except Err Nat × BusPirate :=
  let rc := bp.c.readFull 1
  let bp := { bp with c := rc.2 }
  match rc.1 with
  | .ok bs => (Except.ok (bs.headD 0), bp)
  | .timeoutErr => (Except.error (.errorf .readFromBusPirate), bp)
  | .ioErr => (Except.error (.errorf .readFromBusPirate), bp)

/-- bp.go exchangeByte: write one byte then read one byte. -/
def BusPirate.exchangeByte (bp : BusPirate) (inb : Nat) : Except Err Nat × BusPirate :=
  match bp.writeByte inb with
  | (Except.error e, bp) => (Except.error e, bp)
  | (Except.ok _, bp) => bp.readByte

/-- bp.go exchangeByteAndExpect: exchange a byte and require a specific
response byte. -/
def BusPirate.exchangeByteAndExpect (bp : BusPirate) (inb exp : Nat) :
    Except Err Unit × BusPirate :=
  match bp.exchangeByte inb with
  | (Except.error e, bp) => (Except.error e, bp)
  | (Except.ok rb, bp) =>
    if rb ≠ exp then (Except.error (.errorf .unexpectedResponse), bp)
    else (Except.ok (), bp)

/-- The ASCII bytes of the string BBIO. -/
def bbio : List Nat := [66, 66, 73, 79]

/-- The ASCII bytes of the string BBIO1. -/
def bbio1 : List Nat := [66, 66, 73, 79, 49]

/-- The ASCII bytes of the string I2C. -/
def i2cMagic : List Nat := [73, 50, 67]

/-- The retry loop of bp.go Open, fuel = remaining attempts.  Each attempt
writes 0x00, reads 5 bytes (retrying on timeout), validates BBIO1, then
reconfigures the timeout and drains with a 2048-byte read whose expected
outcome is a timeout.  Note the source returns the raw drain error via
`return err` when it is not a timeout, which is nil (ok) when the drain read
fully succeeded - in that case mode is NOT committed. -/
def BusPirate.openLoop (bp : BusPirate) : Nat → Except Err Unit × BusPirate
  | 0 => (Except.error (.errorf .noSuitableResponse), bp)
  | fuel + 1 =>
    let wc := bp.c.write [0x00]
    let bp := { bp with c := wc.2 }
    if wc.1 then (Except.error (.ioErr false), bp)
    else
      let rc := bp.c.readFull 5
      let bp := { bp with c := rc.2 }
      match rc.1 with
      | .timeoutErr => bp.openLoop fuel
      | .ioErr => (Except.error (.ioErr false), bp)
      | .ok bs =>
        if bs.take 4 ≠ bbio then
          (Except.error (.errorf .responseNoBBIOStart), bp)
        else if bs.getD 4 0 ≠ 49 then
          (Except.error (.errorf .protocolMismatch), bp)
        else
          let sc := bp.c.setReadParams
          let bp := { bp with c := sc.2 }
          if sc.1 then (Except.error (.ioErr false), bp)
          else
            let dc := bp.c.readFull 2048
            let bp := { bp with c := dc.2 }
            match dc.1 with
            | .timeoutErr =>
              (Except.ok (), { bp with mode := MODE_BITBANG, modeversion := 1 })
            | .ok _ => (Except.ok (), bp)
            | .ioErr => (Except.error (.ioErr false), bp)

/-- bp.go Open: initial SetReadParams then up to 20 probe attempts. -/
def BusPirate.Open (bp : BusPirate) : Except Err Unit × BusPirate :=
  let sc := bp.c.setReadParams
  let bp := { bp with c := sc.2 }
  if sc.1 then (Except.error (.ioErr false), bp)
  else bp.openLoop 20

/-- bp.go EnterBitbangMode: refuse from unknown mode; write 0x00, read 5
bytes, validate BBIO1; every post-precondition failure clears the mode. -/
def BusPirate.EnterBitbangMode (bp : BusPirate) : Except Err Unit × BusPirate :=
  if bp.mode = MODE_UNKNOWN then
    (Except.error (.errorf .cannotEnterBitbangFromUnknown), bp)
  else
    match bp.writeByte 0x00 with
    | (Except.error e, bp) => (Except.error e, bp.clearMode)
    | (Except.ok _, bp) =>
      let rc := bp.c.readFull 5
      let bp := { bp with c := rc.2 }
      match rc.1 with
      | .timeoutErr =>
        (Except.error (.wrapped .errorReadingResponse (.ioErr true)), bp.clearMode)
      | .ioErr =>
        (Except.error (.wrapped .errorReadingResponse (.ioErr false)), bp.clearMode)
      | .ok bs =>
        if bs.take 4 ≠ bbio then
          (Except.error (.errorf .expectedBBIOx), bp.clearMode)
        else if bs.getD 4 0 ≠ 49 then
          (Except.error (.errorf .onlyBBIOVersion1), bp.clearMode)
        else (Except.ok (), bp)

/-- bp.go Close: refuse from unknown mode; if not in bitbang mode, first
EnterBitbangMode (wrapping its failure); then exchange 0x0F expecting 0x01. -/
def BusPirate.Close (bp : BusPirate) : Except Err Unit × BusPirate :=
  if bp.mode = MODE_UNKNOWN then
    (Except.error (.errorf .cannotLeaveUnknownMode), bp)
  else
    let step : Except Err Unit × BusPirate :=
      if bp.mode ≠ MODE_BITBANG then
        match bp.EnterBitbangMode with
        | (Except.error e, bp) =>
          (Except.error (.wrapped .couldNotEnterBitbangToClose e), bp)
        | (Except.ok _, bp) => (Except.ok (), bp)
      else (Except.ok (), bp)
    match step with
    | (Except.error e, bp) => (Except.error e, bp)
    | (Except.ok _, bp) =>
      match bp.exchangeByte 0x0f with
      | (Except.error e, bp) => (Except.error e, bp)
      | (Except.ok r, bp) =>
        if r ≠ 0x01 then (Except.error (.errorf .closeExpected01), bp)
        else (Except.ok (), bp)

/-- i2c.go EnterI2CMode: only from bitbang mode; write 0x02, read 4 bytes,
validate I2C1; commit MODE_I2C version 1 on success; post-precondition
failures clear the mode.  (The returned BusPirateI2C handle carries no data
beyond the session, so the embedding returns only the session.) -/
def BusPirate.EnterI2CMode (bp : BusPirate) : Except Err Unit × BusPirate :=
  if bp.mode ≠ MODE_BITBANG then
    (Except.error (.modeError .i2cModeOnlyFromBitbang), bp)
  else
    match bp.writeByte 0x02 with
    | (Except.error e, bp) => (Except.error e, bp.clearMode)
    | (Except.ok _, bp) =>
      let rc := bp.c.readFull 4
      let bp := { bp with c := rc.2 }
      match rc.1 with
      | .timeoutErr =>
        (Except.error (.wrapped .errorReadingResponse (.ioErr true)), bp.clearMode)
      | .ioErr =>
        (Except.error (.wrapped .errorReadingResponse (.ioErr false)), bp.clearMode)
      | .ok bs =>
        if bs.take 3 ≠ i2cMagic then
          (Except.error (.errorf .expectedI2Cx), bp.clearMode)
        else if bs.getD 3 0 ≠ 49 then
          (Except.error (.errorf .onlyI2CVersion1), bp.clearMode)
        else (Except.ok (), { bp with mode := MODE_I2C, modeversion := 1 })

/-- i2c.go BusPirateI2C.Start. -/
def BusPirateI2C.Start (bp : BusPirate) : Except Err Unit × BusPirate :=
  if bp.mode ≠ MODE_I2C then (Except.error notI2CMode, bp)
  else
    match bp.exchangeByteAndExpect 0x02 0x01 with
    | (Except.error e, bp) => (Except.error (.i2c .start e), bp)
    | (Except.ok _, bp) => (Except.ok (), bp)

/-- i2c.go BusPirateI2C.Stop. -/
def BusPirateI2C.Stop (bp : BusPirate) : Except Err Unit × BusPirate :=
  if bp.mode ≠ MODE_I2C then (Except.error notI2CMode, bp)
  else
    match bp.exchangeByteAndExpect 0x03 0x01 with
    | (Except.error e, bp) => (Except.error (.i2c .stop e), bp)
    | (Except.ok _, bp) => (Except.ok (), bp)

/-- i2c.go BusPirateI2C.ReadByte.  (In Go, a failed ack/nack exchange still
returns the data byte alongside the error; Except keeps only the error.) -/
def BusPirateI2C.ReadByte (bp : BusPirate) (ack : Bool) : Except Err Nat × BusPirate :=
  if bp.mode ≠ MODE_I2C then (Except.error notI2CMode, bp)
  else
    match bp.exchangeByte 0x04 with
    | (Except.error e, bp) => (Except.error (.i2c .readByteOp e), bp)
    | (Except.ok b, bp) =>
      let ac := if ack then bp.exchangeByteAndExpect 0x06 0x01
                else bp.exchangeByteAndExpect 0x07 0x01
      match ac with
      | (Except.error e, bp) => (Except.error (.i2c .readByteOp e), bp)
      | (Except.ok _, bp) => (Except.ok b, bp)

/-- i2c.go BusPirateI2C.WriteByte. -/
def BusPirateI2C.WriteByte (bp : BusPirate) (b : Nat) : Except Err Unit × BusPirate :=
  if bp.mode ≠ MODE_I2C then (Except.error notI2CMode, bp)
  else
    match bp.exchangeByteAndExpect 0x10 0x01 with
    | (Except.error e, bp) => (Except.error (.i2c .writeByteOp e), bp)
    | (Except.ok _, bp) =>
      match bp.exchangeByte b with
      | (Except.error e, bp) => (Except.error (.i2c .writeByteOp e), bp)
      | (Except.ok ackb, bp) =>
        if ackb ≠ 0 then (Except.error .nackReceived, bp)
        else (Except.ok (), bp)

/-- i2c.go NonStrictI2C.writeThenRead.  The caller's read buffer r is
modelled by its length `rlen`; the ok value is the list of bytes read into r
(empty when rlen = 0, and also on the source's header-write-failure path,
where it returns nil without reading anything). -/
def NonStrictI2C.writeThenRead (bp : BusPirate) (w : List Nat) (rlen : Nat) :
    Except Err (List Nat) × BusPirate :=
  if w.length > 4096 then
    (Except.error (.errorf .wtrTooManyBytes), bp)
  else if rlen > 4096 then
    (Except.error (.errorf .wtrTooManyBytes), bp)
  else
    let header := [0x08, w.length / 256 % 256, w.length % 256,
                   rlen / 256 % 256, rlen % 256]
    let wc := bp.c.write header
    let bp := { bp with c := wc.2 }
    if wc.1 then (Except.ok [], bp)
    else
      let wc2 := bp.c.write w
      let bp := { bp with c := wc2.2 }
      if wc2.1 then (Except.error (.ioErr false), bp)
      else
        match bp.readByte with
        | (Except.error e, bp) => (Except.error e, bp)
        | (Except.ok b, bp) =>
          if b ≠ 0x01 then (Except.error .noSuchDevice, bp)
          else if rlen > 0 then
            let rc := bp.c.readFull rlen
            let bp := { bp with c := rc.2 }
            match rc.1 with
            | .ok bs => (Except.ok bs, bp)
            | .timeoutErr => (Except.error (.ioErr true), bp)
            | .ioErr => (Except.error (.ioErr false), bp)
          else (Except.ok [], bp)

/-- The i2cm.Addr interface: an address length and a base address. -/
structure Addr where
  addrLen : Nat
  baseAddr : Nat
deriving DecidableEq

/-- i2c.go NonStrictI2C.Transact8x8.  Returns (nw, nr, err) as in Go; the
bytes read into r are dropped (they are the ok value of the second
writeThenRead).  uint8 conversions are modelled as % 256 at the same places
as the source. -/
def NonStrictI2C.Transact8x8 (bp : BusPirate) (addr : Addr) (regaddr : Nat)
    (w : List Nat) (rlen : Nat) : (Nat × Nat × Option Err) × BusPirate :=
  if bp.mode ≠ MODE_I2C then ((0, 0, some notI2CMode), bp)
  else if addr.addrLen ≠ 7 then
    ((0, 0, some (.errorf .only7BitAddressing)), bp)
  else if w.length > 4096 - 1 then
    ((0, 0, some (.errorf .transactWriteTooBig)), bp)
  else if rlen > 4096 then
    ((0, 0, some (.errorf .transactReadTooBig)), bp)
  else
    let wbuf := (addr.baseAddr % 256 * 2 % 256) :: regaddr :: w
    match NonStrictI2C.writeThenRead bp wbuf 0 with
    | (Except.error e, bp) => ((0, 0, some e), bp)
    | (Except.ok _, bp) =>
      let wbuf2 := [addr.baseAddr * 2 % 256 ||| 1]
      match NonStrictI2C.writeThenRead bp wbuf2 rlen with
      | (Except.error e, bp) => ((0, 0, some e), bp)
      | (Except.ok _, bp) => ((w.length, rlen, none), bp)

/-! ## Common helper lemmas -/

/-- A concrete fixed session used by witnesses: bitbang mode, empty scripts. -/
def bpBitbang0 : BusPirate := ⟨⟨[], [], [], []⟩, MODE_BITBANG, 1⟩

/-! ## C1 -/

/-- C1: every I2C-mode operation (Start, Stop, ReadByte, WriteByte,
Transact8x8) invoked on a session whose mode is not I2C fails with a
ModeError and leaves the session - in particular the transport write log -
completely unchanged, so zero transport writes are performed. -/
theorem i2c_ops_require_i2c_mode (bp : BusPirate) (ack : Bool) (b : Nat)
    (addr : Addr) (regaddr : Nat) (w : List Nat) (rlen : Nat)
    (hm : bp.mode ≠ MODE_I2C) :
    BusPirateI2C.Start bp = (Except.error notI2CMode, bp) ∧
    BusPirateI2C.Stop bp = (Except.error notI2CMode, bp) ∧
    BusPirateI2C.ReadByte bp ack = (Except.error notI2CMode, bp) ∧
    BusPirateI2C.WriteByte bp b = (Except.error notI2CMode, bp) ∧
    NonStrictI2C.Transact8x8 bp addr regaddr w rlen = ((0, 0, some notI2CMode), bp) ∧
    notI2CMode.isModeError = true := by
  refine ⟨?_, ?_, ?_, ?_, ?_, rfl⟩ <;>
    simp [BusPirateI2C.Start, BusPirateI2C.Stop, BusPirateI2C.ReadByte,
          BusPirateI2C.WriteByte, NonStrictI2C.Transact8x8, hm]

/-- C1 witness: concrete evaluation at a bitbang-mode session. -/
theorem i2c_ops_require_i2c_mode_witness :
    BusPirateI2C.Start bpBitbang0 = (Except.error notI2CMode, bpBitbang0) ∧
    BusPirateI2C.Stop bpBitbang0 = (Except.error notI2CMode, bpBitbang0) ∧
    BusPirateI2C.ReadByte bpBitbang0 false = (Except.error notI2CMode, bpBitbang0) ∧
    BusPirateI2C.WriteByte bpBitbang0 0xAB = (Except.error notI2CMode, bpBitbang0) ∧
    NonStrictI2C.Transact8x8 bpBitbang0 ⟨7, 0x50⟩ 0x10 [] 0 =
      ((0, 0, some notI2CMode), bpBitbang0) ∧
    notI2CMode.isModeError = true :=
  i2c_ops_require_i2c_mode bpBitbang0 false 0xAB ⟨7, 0x50⟩ 0x10 [] 0 (by decide)

/-! ## C6 -/

/-- C6 code_bug evidence: a transport whose Write call fails (writeFails =
[true]) while a byte 0x05 is readable.  writeByte discards the error it
builds (the source drops the errors.New value and returns nil), so
exchangeByte proceeds to read and reports success with the byte 5 - the
write error is swallowed, contradicting the claim and the spec. -/
theorem exchangeByte_swallows_write_error_bug :
    (BusPirate.exchangeByte ⟨⟨[.data [5]], [true], [], []⟩, MODE_BITBANG, 1⟩ 0x0f).1 =
      Except.ok 5 ∧
    (BusPirate.writeByte ⟨⟨[], [true], [], []⟩, MODE_BITBANG, 1⟩ 0x0f).1 =
      Except.ok () := by
  decide

/-! ## C7 -/

/-- C7 code_bug evidence: writeThenRead with a transport whose first Write
(the 5-byte frame header) fails returns nil (ok) - the source does
`return nil` in the header-write error branch - even though the header write
failed and nothing further was exchanged.  The spec itself flags this
divergence as a defect. -/
theorem writeThenRead_header_write_error_ok_bug :
    NonStrictI2C.writeThenRead ⟨⟨[], [true], [], []⟩, MODE_I2C, 1⟩ [0x50] 0 =
      (Except.ok [], ⟨⟨[], [], [], [[0x08, 0, 1, 0, 0]]⟩, MODE_I2C, 1⟩) := by
  decide

/-! ## C8 -/

/-- C8: writeThenRead with a write payload longer than 4096 bytes or a read
request longer than 4096 bytes returns the bounds error and returns the
session unchanged: zero transport writes are performed. -/
theorem writeThenRead_bounds_check (bp : BusPirate) (w : List Nat) (rlen : Nat)
    (h : w.length > 4096 ∨ rlen > 4096) :
    NonStrictI2C.writeThenRead bp w rlen =
      (Except.error (.errorf .wtrTooManyBytes), bp) := by
  unfold NonStrictI2C.writeThenRead
  rcases h with h | h
  · rw [if_pos h]
  · by_cases hw : w.length > 4096
    · rw [if_pos hw]
    · rw [if_neg hw, if_pos h]

/-- C8 witness: a 4097-byte write payload is rejected with the session
unchanged. -/
theorem writeThenRead_bounds_check_witness :
    NonStrictI2C.writeThenRead bpBitbang0 (List.replicate 4097 0) 0 =
      (Except.error (.errorf .wtrTooManyBytes), bpBitbang0) :=
  writeThenRead_bounds_check bpBitbang0 (List.replicate 4097 0) 0
    (Or.inl (by rw [List.length_replicate]; omega))

/-! ## Structural lemmas about mode transitions and exchanges -/

/-- EnterBitbangMode either succeeds and leaves mode and version untouched,
or fails with the mode forced to Unknown (the precondition branch can only
fail when the mode already is Unknown). -/
theorem enterBitbang_mode_after (bp : BusPirate) :
    ((bp.EnterBitbangMode).1 = Except.ok () ∧ (bp.EnterBitbangMode).2.mode = bp.mode ∧
      (bp.EnterBitbangMode).2.modeversion = bp.modeversion) ∨
    ((∃ e, (bp.EnterBitbangMode).1 = Except.error e) ∧
      (bp.EnterBitbangMode).2.mode = MODE_UNKNOWN) := by
  obtain ⟨⟨reads, wf, srp, wr⟩, mode, mv⟩ := bp
  by_cases hu : mode = MODE_UNKNOWN
  · right; simp [BusPirate.EnterBitbangMode, hu]
  · simp only at hu
    cases reads with
    | nil =>
      right
      simp [BusPirate.EnterBitbangMode, hu, BusPirate.writeByte, Conn.write,
            Conn.readFull, BusPirate.clearMode]
    | cons o rest =>
      cases o with
      | timeout =>
        right
        simp [BusPirate.EnterBitbangMode, hu, BusPirate.writeByte, Conn.write,
              Conn.readFull, BusPirate.clearMode]
      | ioError =>
        right
        simp [BusPirate.EnterBitbangMode, hu, BusPirate.writeByte, Conn.write,
              Conn.readFull, BusPirate.clearMode]
      | data bs =>
        rcases bs with _ | ⟨a, _ | ⟨b, _ | ⟨c, _ | ⟨d, _ | ⟨e, _ | ⟨f, tl⟩⟩⟩⟩⟩⟩ <;>
          first
          | (right
             simp [BusPirate.EnterBitbangMode, hu, BusPirate.writeByte, Conn.write,
                   Conn.readFull, BusPirate.clearMode]
             done)
          | skip
        by_cases ht : [a, b, c, d] = bbio
        · by_cases hv : e = 49
          · left
            simp [BusPirate.EnterBitbangMode, hu, BusPirate.writeByte, Conn.write,
                  Conn.readFull, BusPirate.clearMode, ht, hv]
          · right
            simp [BusPirate.EnterBitbangMode, hu, BusPirate.writeByte, Conn.write,
                  Conn.readFull, BusPirate.clearMode, ht, hv]
        · right
          simp [BusPirate.EnterBitbangMode, hu, BusPirate.writeByte, Conn.write,
                Conn.readFull, BusPirate.clearMode, ht]

/-- When its precondition passes, EnterBitbangMode performs exactly one
transport write, of the single byte 0x00. -/
theorem enterBitbang_written (bp : BusPirate) (hu : ¬ bp.mode = MODE_UNKNOWN) :
    (bp.EnterBitbangMode).2.c.written = bp.c.written ++ [[0x00]] := by
  obtain ⟨⟨reads, wf, srp, wr⟩, mode, mv⟩ := bp
  simp only at hu
  cases reads with
  | nil =>
    simp [BusPirate.EnterBitbangMode, hu, BusPirate.writeByte, Conn.write,
          Conn.readFull, BusPirate.clearMode]
  | cons o rest =>
    cases o with
    | timeout =>
      simp [BusPirate.EnterBitbangMode, hu, BusPirate.writeByte, Conn.write,
            Conn.readFull, BusPirate.clearMode]
    | ioError =>
      simp [BusPirate.EnterBitbangMode, hu, BusPirate.writeByte, Conn.write,
            Conn.readFull, BusPirate.clearMode]
    | data bs =>
      rcases bs with _ | ⟨a, _ | ⟨b, _ | ⟨c, _ | ⟨d, _ | ⟨e, _ | ⟨f, tl⟩⟩⟩⟩⟩⟩ <;>
        first
        | (simp [BusPirate.EnterBitbangMode, hu, BusPirate.writeByte, Conn.write,
                 Conn.readFull, BusPirate.clearMode]
           done)
        | skip
      by_cases ht : [a, b, c, d] = bbio
      · by_cases hv : e = 49 <;>
          simp [BusPirate.EnterBitbangMode, hu, BusPirate.writeByte, Conn.write,
                Conn.readFull, BusPirate.clearMode, ht, hv]
      · simp [BusPirate.EnterBitbangMode, hu, BusPirate.writeByte, Conn.write,
              Conn.readFull, BusPirate.clearMode, ht]

/-- EnterI2CMode from bitbang mode either succeeds committing I2C mode
version 1, or fails with the mode forced to Unknown. -/
theorem enterI2C_mode_after (bp : BusPirate) (hb : bp.mode = MODE_BITBANG) :
    ((bp.EnterI2CMode).1 = Except.ok () ∧ (bp.EnterI2CMode).2.mode = MODE_I2C ∧
      (bp.EnterI2CMode).2.modeversion = 1) ∨
    ((∃ e, (bp.EnterI2CMode).1 = Except.error e) ∧
      (bp.EnterI2CMode).2.mode = MODE_UNKNOWN) := by
  obtain ⟨⟨reads, wf, srp, wr⟩, mode, mv⟩ := bp
  simp only at hb
  subst hb
  cases reads with
  | nil =>
    right
    simp [BusPirate.EnterI2CMode, BusPirate.writeByte, Conn.write,
          Conn.readFull, BusPirate.clearMode]
  | cons o rest =>
    cases o with
    | timeout =>
      right
      simp [BusPirate.EnterI2CMode, BusPirate.writeByte, Conn.write,
            Conn.readFull, BusPirate.clearMode]
    | ioError =>
      right
      simp [BusPirate.EnterI2CMode, BusPirate.writeByte, Conn.write,
            Conn.readFull, BusPirate.clearMode]
    | data bs =>
      rcases bs with _ | ⟨a, _ | ⟨b, _ | ⟨c, _ | ⟨d, _ | ⟨e, tl⟩⟩⟩⟩⟩ <;>
        first
        | (right
           simp [BusPirate.EnterI2CMode, BusPirate.writeByte, Conn.write,
                 Conn.readFull, BusPirate.clearMode]
           done)
        | skip
      by_cases ht : [a, b, c] = i2cMagic
      · by_cases hv : d = 49
        · left
          simp [BusPirate.EnterI2CMode, BusPirate.writeByte, Conn.write,
                Conn.readFull, BusPirate.clearMode, ht, hv]
        · right
          simp [BusPirate.EnterI2CMode, BusPirate.writeByte, Conn.write,
                Conn.readFull, BusPirate.clearMode, ht, hv]
      · right
        simp [BusPirate.EnterI2CMode, BusPirate.writeByte, Conn.write,
              Conn.readFull, BusPirate.clearMode, ht]

/-- exchangeByte writes exactly its input byte and never touches the mode
fields. -/
theorem exchangeByte_run (bp : BusPirate) (b : Nat) :
    (bp.exchangeByte b).2.c.written = bp.c.written ++ [[b]] ∧
    (bp.exchangeByte b).2.mode = bp.mode ∧
    (bp.exchangeByte b).2.modeversion = bp.modeversion := by
  obtain ⟨⟨reads, wf, srp, wr⟩, mode, mv⟩ := bp
  cases reads with
  | nil =>
    simp [BusPirate.exchangeByte, BusPirate.writeByte, BusPirate.readByte,
          Conn.write, Conn.readFull]
  | cons o rest =>
    cases o with
    | timeout =>
      simp [BusPirate.exchangeByte, BusPirate.writeByte, BusPirate.readByte,
            Conn.write, Conn.readFull]
    | ioError =>
      simp [BusPirate.exchangeByte, BusPirate.writeByte, BusPirate.readByte,
            Conn.write, Conn.readFull]
    | data bs =>
      by_cases hlen : bs.length = 1 <;>
        simp [BusPirate.exchangeByte, BusPirate.writeByte, BusPirate.readByte,
              Conn.write, Conn.readFull, hlen]

/-! ## C3 -/

/-- C3 counterexample: EnterI2CMode called on a session in Closed mode fails
(with a ModeError from the mode precondition) yet the session mode stays
Closed, not Unknown - refuting the claim that after any failed mode
transition the mode becomes Unknown regardless of its prior value. -/
theorem enterI2CMode_precondition_no_clear_cex :
    (BusPirate.EnterI2CMode ⟨⟨[], [], [], []⟩, MODE_CLOSED, 0⟩).1 =
      Except.error (.modeError .i2cModeOnlyFromBitbang) ∧
    (BusPirate.EnterI2CMode ⟨⟨[], [], [], []⟩, MODE_CLOSED, 0⟩).2.mode ≠ MODE_UNKNOWN := by
  decide

/-- C3 amended: whenever EnterBitbangMode fails the session mode is Unknown
afterwards (its precondition only fails when the mode already is Unknown);
whenever EnterI2CMode fails after its mode precondition passed, the session
mode becomes Unknown; when the EnterI2CMode precondition fails (mode not
BitBang) the call fails with a ModeError and the session - including its
mode - is left completely unchanged. -/
theorem mode_transition_failure_clears_mode_amended (bp : BusPirate) :
    (∀ e, (bp.EnterBitbangMode).1 = Except.error e →
       (bp.EnterBitbangMode).2.mode = MODE_UNKNOWN) ∧
    (bp.mode = MODE_BITBANG → ∀ e, (bp.EnterI2CMode).1 = Except.error e →
       (bp.EnterI2CMode).2.mode = MODE_UNKNOWN) ∧
    (bp.mode ≠ MODE_BITBANG →
       bp.EnterI2CMode = (Except.error (.modeError .i2cModeOnlyFromBitbang), bp)) := by
  refine ⟨?_, ?_, ?_⟩
  · intro e he
    rcases enterBitbang_mode_after bp with ⟨hok, _, _⟩ | ⟨_, hmode⟩
    · rw [hok] at he
      exact absurd he (by simp)
    · exact hmode
  · intro hb e he
    rcases enterI2C_mode_after bp hb with ⟨hok, _, _⟩ | ⟨_, hmode⟩
    · rw [hok] at he
      exact absurd he (by simp)
    · exact hmode
  · intro hb
    unfold BusPirate.EnterI2CMode
    rw [if_pos hb]

/-- C3 amended witness: a failed EnterBitbangMode (timeout) from I2C mode
leaves the session in Unknown mode. -/
theorem mode_transition_failure_clears_mode_amended_witness :
    (BusPirate.EnterBitbangMode ⟨⟨[], [], [], []⟩, MODE_I2C, 1⟩).2.mode = MODE_UNKNOWN :=
  (mode_transition_failure_clears_mode_amended ⟨⟨[], [], [], []⟩, MODE_I2C, 1⟩).1
    (.wrapped .errorReadingResponse (.ioErr true)) (by decide)

/-! ## C4 -/

/-- One Open attempt whose probe answers BBIO1 and whose drain read then
returns a full 2048-byte buffer (nil error): the source hits `return err`
with err = nil and reports success without committing the mode. -/
theorem openLoop_data_full_drain (ds : List Nat) (hds : ds.length = 2048)
    (rest : List ReadOutcome) (wr : List (List Nat)) (mode mv f : Nat) :
    BusPirate.openLoop ⟨⟨.data bbio1 :: .data ds :: rest, [], [], wr⟩, mode, mv⟩ (f + 1) =
      (Except.ok (), ⟨⟨rest, [], [], wr ++ [[0]]⟩, mode, mv⟩) := by
  simp [BusPirate.openLoop, Conn.write, Conn.readFull, Conn.setReadParams, bbio1, bbio, hds]

/-- With empty failure scripts the initial SetReadParams succeeds and Open
is its 20-attempt probe loop. -/
theorem Open_eq_openLoop (reads : List ReadOutcome) (wr : List (List Nat)) (mode mv : Nat) :
    BusPirate.Open ⟨⟨reads, [], [], wr⟩, mode, mv⟩ =
      BusPirate.openLoop ⟨⟨reads, [], [], wr⟩, mode, mv⟩ 20 := rfl

/-- The session exhibiting the drain bug: fresh (Closed) session, probe
attempt 0 answers BBIO1, then 2048 stray bytes arrive during the drain. -/
def bpDrainFull : BusPirate :=
  ⟨⟨[.data bbio1, .data (List.replicate 2048 0)], [], [], []⟩, MODE_CLOSED, 0⟩

/-- C4 code_bug evidence: after a validated BBIO1 handshake, when the
2048-byte drain read completes fully without a timeout (data actually
arriving, nil error), Open returns success (not an error, contradicting the
claim) while indeed not committing mode = BitBang, leaving the session
closed but reported open. -/
theorem open_drain_full_data_returns_ok_bug :
    (BusPirate.Open bpDrainFull).1 = Except.ok () ∧
    (BusPirate.Open bpDrainFull).2.mode ≠ MODE_BITBANG := by
  have h : BusPirate.Open bpDrainFull =
      (Except.ok (), ⟨⟨[], [], [], [[0]]⟩, MODE_CLOSED, 0⟩) := by
    rw [show bpDrainFull = ⟨⟨[.data bbio1, .data (List.replicate 2048 0)], [], [], []⟩,
          MODE_CLOSED, 0⟩ from rfl,
        Open_eq_openLoop]
    exact openLoop_data_full_drain (List.replicate 2048 0) (List.length_replicate 2048 0)
      [] [] MODE_CLOSED 0 19
  rw [h]
  exact ⟨rfl, by decide⟩

/-! ## C2 -/

/-- One probe attempt whose write succeeds and whose probe read answers
exactly BBIO1 with no further script entries: the drain read times out and
the loop commits bitbang mode. -/
theorem openLoop_step_valid_nil (wr : List (List Nat)) (mode mv f : Nat) :
    BusPirate.openLoop ⟨⟨[.data bbio1], [], [], wr⟩, mode, mv⟩ (f + 1) =
      (Except.ok (), ⟨⟨[], [], [], wr ++ [[0]]⟩, MODE_BITBANG, 1⟩) := rfl

/-- Validated probe followed by a drain timeout: bitbang mode committed. -/
theorem openLoop_step_valid_timeout (rest2 : List ReadOutcome) (wr : List (List Nat))
    (mode mv f : Nat) :
    BusPirate.openLoop ⟨⟨.data bbio1 :: .timeout :: rest2, [], [], wr⟩, mode, mv⟩ (f + 1) =
      (Except.ok (), ⟨⟨rest2, [], [], wr ++ [[0]]⟩, MODE_BITBANG, 1⟩) := rfl

/-- Validated probe followed by a hard drain error: Open fails, no commit. -/
theorem openLoop_step_valid_ioError (rest2 : List ReadOutcome) (wr : List (List Nat))
    (mode mv f : Nat) :
    BusPirate.openLoop ⟨⟨.data bbio1 :: .ioError :: rest2, [], [], wr⟩, mode, mv⟩ (f + 1) =
      (Except.error (.ioErr false), ⟨⟨rest2, [], [], wr ++ [[0]]⟩, mode, mv⟩) := rfl

/-- Validated probe whose drain read returns data of the wrong length: a
non-timeout error, Open fails, no commit. -/
theorem openLoop_step_valid_drain_ioErr (ds : List Nat) (hds : ds.length ≠ 2048)
    (rest2 : List ReadOutcome) (wr : List (List Nat)) (mode mv f : Nat) :
    BusPirate.openLoop ⟨⟨.data bbio1 :: .data ds :: rest2, [], [], wr⟩, mode, mv⟩ (f + 1) =
      (Except.error (.ioErr false), ⟨⟨rest2, [], [], wr ++ [[0]]⟩, mode, mv⟩) := by
  simp [BusPirate.openLoop, Conn.write, Conn.readFull, Conn.setReadParams, bbio1, bbio, hds]

/-- getD on the empty script is the default (a quiescent line times out). -/
theorem listGetD_nil (i : Nat) (d : ReadOutcome) : ([] : List ReadOutcome).getD i d = d := by
  cases i <;> rfl

/-- getD at index zero of a cons. -/
theorem listGetD_cons_zero (a : ReadOutcome) (l : List ReadOutcome) (d : ReadOutcome) :
    (a :: l).getD 0 d = a := rfl

/-- getD at a successor index of a cons. -/
theorem listGetD_cons_succ (a : ReadOutcome) (l : List ReadOutcome) (i : Nat) (d : ReadOutcome) :
    (a :: l).getD (i + 1) d = l.getD i d := rfl

/-- A probe attempt against an exhausted read script times out and retries. -/
theorem openLoop_step_nil (srp : List Bool) (wr : List (List Nat)) (mode mv f : Nat) :
    BusPirate.openLoop ⟨⟨[], [], srp, wr⟩, mode, mv⟩ (f + 1) =
      BusPirate.openLoop ⟨⟨[], [], srp, wr ++ [[0]]⟩, mode, mv⟩ f := rfl

/-- A probe attempt whose read times out consumes one script entry and
retries with one more 0x00 probe logged. -/
theorem openLoop_step_timeout (rest : List ReadOutcome) (srp : List Bool)
    (wr : List (List Nat)) (mode mv f : Nat) :
    BusPirate.openLoop ⟨⟨.timeout :: rest, [], srp, wr⟩, mode, mv⟩ (f + 1) =
      BusPirate.openLoop ⟨⟨rest, [], srp, wr ++ [[0]]⟩, mode, mv⟩ f := rfl

/-- A probe attempt whose read fails hard aborts Open with the transport
error (no retry). -/
theorem openLoop_step_ioError (rest : List ReadOutcome) (srp : List Bool)
    (wr : List (List Nat)) (mode mv f : Nat) :
    BusPirate.openLoop ⟨⟨.ioError :: rest, [], srp, wr⟩, mode, mv⟩ (f + 1) =
      (Except.error (.ioErr false), ⟨⟨rest, [], srp, wr ++ [[0]]⟩, mode, mv⟩) := rfl

/-- A probe attempt answered by 5 bytes that fail validation aborts Open
immediately with the corresponding protocol error. -/
theorem openLoop_step_invalid (a b c d e : Nat)
    (hbad : ¬ ([a, b, c, d] = bbio ∧ e = 49))
    (rest : List ReadOutcome) (wr : List (List Nat)) (mode mv f : Nat) :
    BusPirate.openLoop ⟨⟨.data [a, b, c, d, e] :: rest, [], [], wr⟩, mode, mv⟩ (f + 1) =
      (Except.error (if [a, b, c, d] ≠ bbio then .errorf .responseNoBBIOStart
                     else .errorf .protocolMismatch),
       ⟨⟨rest, [], [], wr ++ [[0]]⟩, mode, mv⟩) := by
  by_cases ht : [a, b, c, d] = bbio
  · have hv : e ≠ 49 := fun hv => hbad ⟨ht, hv⟩
    simp [BusPirate.openLoop, Conn.write, Conn.readFull, ht, hv]
  · simp [BusPirate.openLoop, Conn.write, Conn.readFull, ht]

/-- The probe loop with fuel attempts remaining, an all-successful write and
SetReadParams script, commits bitbang mode with an ok result exactly when,
for some k below the fuel, the first k probe reads time out, probe read k
answers exactly BBIO1 and the following drain read times out (an exhausted
script reads as timeouts throughout). -/
theorem openLoop_success_iff (fuel : Nat) :
    ∀ reads wr mode mv, mode ≠ MODE_BITBANG →
    (((BusPirate.openLoop ⟨⟨reads, [], [], wr⟩, mode, mv⟩ fuel).1 = Except.ok () ∧
      (BusPirate.openLoop ⟨⟨reads, [], [], wr⟩, mode, mv⟩ fuel).2.mode = MODE_BITBANG ∧
      (BusPirate.openLoop ⟨⟨reads, [], [], wr⟩, mode, mv⟩ fuel).2.modeversion = 1) ↔
    (∃ k, k < fuel ∧ (∀ i, i < k → reads.getD i .timeout = .timeout) ∧
       reads.getD k .timeout = .data bbio1 ∧
       reads.getD (k + 1) .timeout = .timeout)) := by
  induction fuel with
  | zero =>
    intro reads wr mode mv hm
    simp [BusPirate.openLoop]
  | succ f ih =>
    intro reads wr mode mv hm
    cases reads with
    | nil =>
      rw [openLoop_step_nil, ih [] (wr ++ [[0]]) mode mv hm]
      constructor
      · rintro ⟨k, hk, hts, hd, hd2⟩
        rw [listGetD_nil] at hd
        exact absurd hd (by decide)
      · rintro ⟨k, hk, hts, hd, hd2⟩
        rw [listGetD_nil] at hd
        exact absurd hd (by decide)
    | cons o rest =>
      cases o with
      | timeout =>
        rw [openLoop_step_timeout, ih rest (wr ++ [[0]]) mode mv hm]
        constructor
        · rintro ⟨k, hk, hts, hd, hd2⟩
          refine ⟨k + 1, by omega, ?_, ?_, ?_⟩
          · intro i hi
            rcases i with _ | i
            · rw [listGetD_cons_zero]
            · rw [listGetD_cons_succ]
              exact hts i (by omega)
          · rw [listGetD_cons_succ]
            exact hd
          · rw [listGetD_cons_succ]
            exact hd2
        · rintro ⟨k, hk, hts, hd, hd2⟩
          rcases k with _ | k
          · rw [listGetD_cons_zero] at hd
            exact absurd hd (by decide)
          · refine ⟨k, by omega, ?_, ?_, ?_⟩
            · intro i hi
              have := hts (i + 1) (by omega)
              rwa [listGetD_cons_succ] at this
            · rwa [listGetD_cons_succ] at hd
            · rwa [listGetD_cons_succ] at hd2
      | ioError =>
        rw [openLoop_step_ioError]
        constructor
        · rintro ⟨h1, -, -⟩
          exact absurd h1 (by simp)
        · rintro ⟨k, hk, hts, hd, hd2⟩
          rcases k with _ | k
          · rw [listGetD_cons_zero] at hd
            exact absurd hd (by decide)
          · have h0 := hts 0 (by omega)
            rw [listGetD_cons_zero] at h0
            exact absurd h0 (by decide)
      | data bs =>
        rcases bs with _ | ⟨a, _ | ⟨b, _ | ⟨c, _ | ⟨d, _ | ⟨e, _ | ⟨g, tl⟩⟩⟩⟩⟩⟩ <;>
          first
          | (constructor
             · rintro ⟨h1, -, -⟩
               revert h1
               simp [BusPirate.openLoop, Conn.write, Conn.readFull]
             · rintro ⟨k, hk, hts, hd, hd2⟩
               rcases k with _ | k
               · rw [listGetD_cons_zero] at hd
                 simp [bbio1] at hd
               · have h0 := hts 0 (by omega)
                 rw [listGetD_cons_zero] at h0
                 simp at h0
             done)
          | skip
        by_cases hgood : [a, b, c, d] = bbio ∧ e = 49
        · obtain ⟨ht, hv⟩ := hgood
          have hbs : (ReadOutcome.data [a, b, c, d, e]) = ReadOutcome.data bbio1 := by
            simp [bbio] at ht
            simp [bbio1, ht.1, ht.2.1, ht.2.2.1, ht.2.2.2, hv]
          rw [hbs]
          cases rest with
          | nil =>
            rw [openLoop_step_valid_nil]
            constructor
            · exact fun _ => ⟨0, by omega, fun i hi => absurd hi (Nat.not_lt_zero i),
                     listGetD_cons_zero _ _ _,
                     by rw [listGetD_cons_succ, listGetD_nil]⟩
            · exact fun _ => ⟨rfl, rfl, rfl⟩
          | cons o2 rest2 =>
            cases o2 with
            | timeout =>
              rw [openLoop_step_valid_timeout]
              constructor
              · exact fun _ => ⟨0, by omega, fun i hi => absurd hi (Nat.not_lt_zero i),
                       listGetD_cons_zero _ _ _,
                       by rw [listGetD_cons_succ, listGetD_cons_zero]⟩
              · exact fun _ => ⟨rfl, rfl, rfl⟩
            | ioError =>
              rw [openLoop_step_valid_ioError]
              constructor
              · rintro ⟨h1, -, -⟩
                exact absurd h1 (by simp)
              · rintro ⟨k, hk, hts, hd, hd2⟩
                rcases k with _ | k
                · rw [listGetD_cons_succ, listGetD_cons_zero] at hd2
                  exact absurd hd2 (by decide)
                · have h0 := hts 0 (by omega)
                  rw [listGetD_cons_zero] at h0
                  exact absurd h0 (by decide)
            | data ds =>
              have hrhsFalse : ¬ (∃ k, k < f + 1 ∧
                  (∀ i, i < k →
                    (ReadOutcome.data bbio1 :: ReadOutcome.data ds :: rest2).getD i
                      .timeout = .timeout) ∧
                  (ReadOutcome.data bbio1 :: ReadOutcome.data ds :: rest2).getD k
                    .timeout = .data bbio1 ∧
                  (ReadOutcome.data bbio1 :: ReadOutcome.data ds :: rest2).getD (k + 1)
                    .timeout = .timeout) := by
                rintro ⟨k, hk, hts, hd, hd2⟩
                rcases k with _ | k
                · rw [listGetD_cons_succ, listGetD_cons_zero] at hd2
                  simp at hd2
                · have h0 := hts 0 (by omega)
                  rw [listGetD_cons_zero] at h0
                  exact absurd h0 (by decide)
              by_cases hds : ds.length = 2048
              · rw [openLoop_data_full_drain ds hds rest2 wr mode mv f]
                constructor
                · rintro ⟨-, hmode, -⟩
                  exact absurd hmode hm
                · exact fun hr => absurd hr hrhsFalse
              · rw [openLoop_step_valid_drain_ioErr ds hds rest2 wr mode mv f]
                constructor
                · rintro ⟨h1, -, -⟩
                  exact absurd h1 (by simp)
                · exact fun hr => absurd hr hrhsFalse
        · rw [openLoop_step_invalid a b c d e hgood rest wr mode mv f]
          constructor
          · rintro ⟨h1, -, -⟩
            exact absurd h1 (by simp)
          · rintro ⟨k, hk, hts, hd, hd2⟩
            rcases k with _ | k
            · rw [listGetD_cons_zero] at hd
              simp [bbio1] at hd
              exact absurd ⟨by simp [bbio, hd.1, hd.2.1, hd.2.2.1, hd.2.2.2.1],
                            hd.2.2.2.2⟩ hgood
            · have h0 := hts 0 (by omega)
              rw [listGetD_cons_zero] at h0
              simp at h0

/-- When every one of the fuel probe attempts times out, the loop fails
with the exhausted-retries error. -/
theorem openLoop_exhausted (fuel : Nat) :
    ∀ reads wr mode mv,
      (∀ i, i < fuel → reads.getD i .timeout = .timeout) →
      (BusPirate.openLoop ⟨⟨reads, [], [], wr⟩, mode, mv⟩ fuel).1 =
        Except.error (.errorf .noSuitableResponse) := by
  induction fuel with
  | zero =>
    intro reads wr mode mv h
    rfl
  | succ f ih =>
    intro reads wr mode mv h
    cases reads with
    | nil =>
      rw [openLoop_step_nil]
      exact ih [] (wr ++ [[0]]) mode mv (fun i hi => listGetD_nil i _)
    | cons o rest =>
      have h0 := h 0 (by omega)
      rw [listGetD_cons_zero] at h0
      subst h0
      rw [openLoop_step_timeout]
      refine ih rest (wr ++ [[0]]) mode mv (fun i hi => ?_)
      have := h (i + 1) (by omega)
      rwa [listGetD_cons_succ] at this

/-- When the first k probe attempts time out and attempt k is answered by 5
bytes failing validation, the loop stops immediately with the corresponding
protocol error having written exactly k+1 probe bytes 0x00 - no further
retries. -/
theorem openLoop_invalid_stops (k : Nat) :
    ∀ fuel reads wr mode mv a b c d e, k < fuel →
      (∀ i, i < k → reads.getD i .timeout = .timeout) →
      reads.getD k .timeout = .data [a, b, c, d, e] →
      ¬ ([a, b, c, d] = bbio ∧ e = 49) →
      (BusPirate.openLoop ⟨⟨reads, [], [], wr⟩, mode, mv⟩ fuel).1 =
        Except.error (if [a, b, c, d] ≠ bbio then .errorf .responseNoBBIOStart
                      else .errorf .protocolMismatch) ∧
      (BusPirate.openLoop ⟨⟨reads, [], [], wr⟩, mode, mv⟩ fuel).2.c.written =
        wr ++ List.replicate (k + 1) [0] := by
  induction k with
  | zero =>
    intro fuel reads wr mode mv a b c d e hk hts hd hbad
    cases reads with
    | nil =>
      rw [listGetD_nil] at hd
      simp at hd
    | cons o rest =>
      rw [listGetD_cons_zero] at hd
      subst hd
      rcases fuel with _ | f
      · omega
      · rw [openLoop_step_invalid a b c d e hbad rest wr mode mv f]
        exact ⟨rfl, by simp⟩
  | succ k ihk =>
    intro fuel reads wr mode mv a b c d e hk hts hd hbad
    cases reads with
    | nil =>
      rw [listGetD_nil] at hd
      simp at hd
    | cons o rest =>
      have h0 := hts 0 (by omega)
      rw [listGetD_cons_zero] at h0
      subst h0
      rcases fuel with _ | f
      · omega
      · rw [openLoop_step_timeout]
        have hrec := ihk f rest (wr ++ [[0]]) mode mv a b c d e (by omega)
          (fun i hi => by
            have := hts (i + 1) (by omega)
            rwa [listGetD_cons_succ] at this)
          (by rwa [listGetD_cons_succ] at hd) hbad
        refine ⟨hrec.1, ?_⟩
        rw [hrec.2]
        simp [List.replicate_succ, List.append_assoc]

/-- C2: on a transport whose writes and SetReadParams calls succeed, and a
session not already in bitbang mode: (1) Open succeeds - committing mode =
BitBang and modeversion = 1 - exactly when some attempt k below 20 (all
earlier attempts timing out) answers the 5 bytes BBIO1 and the subsequent
drain read times out; (2) when all 20 attempts time out Open fails with the
exhausted-retries error; (3) when a 5-byte response arrives whose first 4
bytes are not BBIO or whose 5th byte is not the ASCII digit 1, Open fails
immediately with the corresponding protocol error, after exactly k+1 probe
writes of 0x00 - no further retries. -/
theorem open_handshake_characterization (bp : BusPirate)
    (hwf : bp.c.writeFails = []) (hsrp : bp.c.srpFails = [])
    (hm : bp.mode ≠ MODE_BITBANG) :
    (((bp.Open).1 = Except.ok () ∧ (bp.Open).2.mode = MODE_BITBANG ∧
      (bp.Open).2.modeversion = 1) ↔
     (∃ k, k < 20 ∧ (∀ i, i < k → bp.c.reads.getD i .timeout = .timeout) ∧
        bp.c.reads.getD k .timeout = .data bbio1 ∧
        bp.c.reads.getD (k + 1) .timeout = .timeout)) ∧
    ((∀ i, i < 20 → bp.c.reads.getD i .timeout = .timeout) →
      (bp.Open).1 = Except.error (.errorf .noSuitableResponse)) ∧
    (∀ k a b c d e, k < 20 →
      (∀ i, i < k → bp.c.reads.getD i .timeout = .timeout) →
      bp.c.reads.getD k .timeout = .data [a, b, c, d, e] →
      ¬ ([a, b, c, d] = bbio ∧ e = 49) →
      (bp.Open).1 = Except.error (if [a, b, c, d] ≠ bbio then .errorf .responseNoBBIOStart
                                  else .errorf .protocolMismatch) ∧
      (bp.Open).2.c.written = bp.c.written ++ List.replicate (k + 1) [0x00]) := by
  obtain ⟨⟨reads, wf, srp, wr⟩, mode, mv⟩ := bp
  simp only at hwf hsrp hm ⊢
  subst hwf
  subst hsrp
  rw [Open_eq_openLoop reads wr mode mv]
  exact ⟨openLoop_success_iff 20 reads wr mode mv hm,
         fun h => openLoop_exhausted 20 reads wr mode mv h,
         fun k a b c d e hk hts hd hbad =>
           openLoop_invalid_stops k 20 reads wr mode mv a b c d e hk hts hd hbad⟩

/-- Concrete witness transport: attempt 0 times out, attempt 1 answers
BBIO1, then the script is exhausted so the drain times out. -/
def bpOpenW : BusPirate := ⟨⟨[.timeout, .data bbio1], [], [], []⟩, MODE_CLOSED, 0⟩

/-- C2: on a transport whose writes and SetReadParams calls succeed, and a
session not already in bitbang mode: (1) Open succeeds - committing mode =
BitBang and modeversion = 1 - exactly when some attempt k below 20 (all
earlier attempts timing out) answers the 5 bytes BBIO1 and the subsequent
drain read times out; (2) when all 20 attempts time out Open fails with the
exhausted-retries error; (3) when a 5-byte response arrives whose first 4
bytes are not BBIO or whose 5th byte is not the ASCII digit 1, Open fails
immediately with the corresponding protocol error, after exactly k+1 probe
writes of 0x00 - no further retries. -/
theorem open_handshake_characterization_witness :
    (BusPirate.Open bpOpenW).1 = Except.ok () ∧
    (BusPirate.Open bpOpenW).2.mode = MODE_BITBANG ∧
    (BusPirate.Open bpOpenW).2.modeversion = 1 :=
  (open_handshake_characterization bpOpenW rfl rfl (by decide)).1.mpr
    ⟨1, by omega,
     fun i hi => by
       have h0 : i = 0 := by omega
       rw [h0]
       rfl,
     rfl, rfl⟩

/-! ## C5 -/

/-- C5: Close on a session in I2C mode first performs EnterBitbangMode and
only then exchanges the exit byte 0x0F.  If the implicit EnterBitbangMode
fails, Close returns its error wrapped in the could-not-enter-bitbang
context and the transport has only seen the EnterBitbangMode probe write
0x00 - the byte 0x0F is never written.  If it succeeds, the write log gains
exactly [0x00] then [0x0F], and the exit exchange expects response 0x01. -/
theorem close_from_i2c_bitbang_first (bp : BusPirate) (hm : bp.mode = MODE_I2C) :
    (∀ e, (bp.EnterBitbangMode).1 = Except.error e →
      bp.Close = (Except.error (.wrapped .couldNotEnterBitbangToClose e),
                  (bp.EnterBitbangMode).2) ∧
      (bp.Close).2.c.written = bp.c.written ++ [[0x00]]) ∧
    ((bp.EnterBitbangMode).1 = Except.ok () →
      (bp.Close).2.c.written = bp.c.written ++ [[0x00], [0x0f]] ∧
      ∀ r, ((bp.EnterBitbangMode).2.exchangeByte 0x0f).1 = Except.ok r →
        (bp.Close).1 = (if r ≠ 0x01 then Except.error (.errorf .closeExpected01)
                        else Except.ok ())) := by
  have hu : ¬ bp.mode = MODE_UNKNOWN := by rw [hm]; decide
  have hb : bp.mode ≠ MODE_BITBANG := by rw [hm]; decide
  have hclose : bp.Close =
      (match bp.EnterBitbangMode with
       | (Except.error e, bp1) =>
         (Except.error (.wrapped .couldNotEnterBitbangToClose e), bp1)
       | (Except.ok _, bp1) =>
         match bp1.exchangeByte 0x0f with
         | (Except.error e, bp2) => (Except.error e, bp2)
         | (Except.ok r, bp2) =>
           if r ≠ 0x01 then (Except.error (.errorf .closeExpected01), bp2)
           else (Except.ok (), bp2)) := by
    unfold BusPirate.Close
    rw [if_neg hu, if_pos hb]
    rcases bp.EnterBitbangMode with ⟨r1, bp1⟩
    rcases r1 with e1 | u1 <;> rfl
  constructor
  · intro e he
    rcases hE : bp.EnterBitbangMode with ⟨r1, bp1⟩
    rw [hE] at he hclose
    simp only at he
    subst he
    dsimp only at hclose ⊢
    have hw := enterBitbang_written bp hu
    rw [hE] at hw
    simp only at hw
    exact ⟨hclose, by rw [hclose]; exact hw⟩
  · intro hok
    rcases hE : bp.EnterBitbangMode with ⟨r1, bp1⟩
    rw [hE] at hok hclose
    simp only at hok
    subst hok
    dsimp only at hclose ⊢
    have hw := enterBitbang_written bp hu
    rw [hE] at hw
    simp only at hw
    rcases hX : bp1.exchangeByte 0x0f with ⟨r2, bp2⟩
    rw [hX] at hclose
    have hx := exchangeByte_run bp1 0x0f
    rw [hX] at hx
    simp only at hx
    constructor
    · rcases r2 with e2 | r2
      · dsimp only at hclose
        rw [hclose]
        dsimp only
        rw [hx.1, hw, List.append_assoc]
        rfl
      · dsimp only at hclose
        by_cases hr : r2 ≠ 0x01
        · rw [if_pos hr] at hclose
          rw [hclose]
          dsimp only
          rw [hx.1, hw, List.append_assoc]
          rfl
        · rw [if_neg hr] at hclose
          rw [hclose]
          dsimp only
          rw [hx.1, hw, List.append_assoc]
          rfl
    · intro r hr2
      simp only at hr2
      rcases r2 with e2 | r2
      · exact absurd hr2 (by simp)
      · injection hr2 with hr2
        subst hr2
        dsimp only at hclose
        by_cases hr : r2 ≠ 0x01
        · rw [hclose, if_pos hr, if_pos hr]
        · rw [hclose, if_neg hr, if_neg hr]

/-- C5 witness: concrete session in I2C mode whose EnterBitbangMode times
out; Close fails with the wrapped error and only the 0x00 probe is written. -/
theorem close_from_i2c_bitbang_first_witness :
    BusPirate.Close ⟨⟨[], [], [], []⟩, MODE_I2C, 1⟩ =
      (Except.error (.wrapped .couldNotEnterBitbangToClose
          (.wrapped .errorReadingResponse (.ioErr true))),
       (BusPirate.EnterBitbangMode ⟨⟨[], [], [], []⟩, MODE_I2C, 1⟩).2) ∧
    (BusPirate.Close ⟨⟨[], [], [], []⟩, MODE_I2C, 1⟩).2.c.written = [] ++ [[0x00]] :=
  (close_from_i2c_bitbang_first ⟨⟨[], [], [], []⟩, MODE_I2C, 1⟩ rfl).1
    (.wrapped .errorReadingResponse (.ioErr true)) (by decide)

/-! ## C9 -/

/-- writeThenRead rejects out-of-bounds sizes before any transport
interaction (helper shared by the Transact8x8 analysis). -/
theorem wtr_bounds_aux (bp : BusPirate) (w : List Nat) (rlen : Nat)
    (h : w.length > 4096 ∨ rlen > 4096) :
    NonStrictI2C.writeThenRead bp w rlen =
      (Except.error (.errorf .wtrTooManyBytes), bp) := by
  unfold NonStrictI2C.writeThenRead
  rcases h with h | h
  · rw [if_pos h]
  · by_cases hw : w.length > 4096
    · rw [if_pos hw]
    · rw [if_neg hw, if_pos h]

/-- Within bounds and with a transport that never fails writes, writeThenRead
always sends exactly its 5-byte header and then the payload, and never
touches the mode fields, whatever the read outcomes are. -/
theorem wtr_writes_aux (bp : BusPirate) (w : List Nat) (rlen : Nat)
    (hwf : bp.c.writeFails = []) (hw : ¬ w.length > 4096) (hr : ¬ rlen > 4096) :
    (NonStrictI2C.writeThenRead bp w rlen).2.c.written =
      bp.c.written ++ [[0x08, w.length / 256 % 256, w.length % 256,
                        rlen / 256 % 256, rlen % 256], w] ∧
    (NonStrictI2C.writeThenRead bp w rlen).2.c.writeFails = [] ∧
    (NonStrictI2C.writeThenRead bp w rlen).2.mode = bp.mode ∧
    (NonStrictI2C.writeThenRead bp w rlen).2.modeversion = bp.modeversion := by
  obtain ⟨⟨reads, wf, srp, wr⟩, mode, mv⟩ := bp
  simp only at hwf
  subst hwf
  unfold NonStrictI2C.writeThenRead
  rw [if_neg hw, if_neg hr]
  cases reads with
  | nil => simp [Conn.write, BusPirate.readByte, Conn.readFull]
  | cons o rest =>
    cases o with
    | timeout => simp [Conn.write, BusPirate.readByte, Conn.readFull]
    | ioError => simp [Conn.write, BusPirate.readByte, Conn.readFull]
    | data bs =>
      rcases bs with _ | ⟨b0, _ | ⟨b1, tl⟩⟩ <;>
        first
        | (simp [Conn.write, BusPirate.readByte, Conn.readFull]
           done)
        | skip
      by_cases hst : b0 = 1
      · by_cases hrl : 0 < rlen
        · cases rest with
          | nil => simp [Conn.write, BusPirate.readByte, Conn.readFull, hst, hrl]
          | cons o2 rest2 =>
            cases o2 with
            | timeout =>
              simp [Conn.write, BusPirate.readByte, Conn.readFull, hst, hrl]
            | ioError =>
              simp [Conn.write, BusPirate.readByte, Conn.readFull, hst, hrl]
            | data bs2 =>
              by_cases hb2 : bs2.length = rlen <;>
                simp [Conn.write, BusPirate.readByte, Conn.readFull, hst, hrl, hb2]
        · simp [Conn.write, BusPirate.readByte, Conn.readFull, hst, hrl]
      · simp [Conn.write, BusPirate.readByte, Conn.readFull, hst]

/-- C9: Transact8x8 in I2C mode with a 7-bit address, len(w) at most 4095
and len(r) at most 4096 is determined by exactly two writeThenRead frames:
the first with write buffer [addr<<1, regaddr, w...] and read length 0, the
second with the single byte addr<<1 or-ed with 1 and read length len(r).  If
the first frame fails Transact8x8 aborts with (0, 0, that error); if the
second fails it aborts with (0, 0, that error); if both succeed it returns
(len(w), len(r)) and the transport write log gained exactly header1, frame1
(length len(w)+2), header2 and frame2 (length 1). -/
theorem transact8x8_two_frames (bp : BusPirate) (addr : Addr) (regaddr : Nat)
    (w : List Nat) (rlen : Nat)
    (hm : bp.mode = MODE_I2C) (h7 : addr.addrLen = 7) (hba : addr.baseAddr < 128)
    (hw : w.length ≤ 4095) (hr : rlen ≤ 4096) (hwf : bp.c.writeFails = []) :
    (∀ e bp1,
       NonStrictI2C.writeThenRead bp (2 * addr.baseAddr :: regaddr :: w) 0 =
         (Except.error e, bp1) →
       NonStrictI2C.Transact8x8 bp addr regaddr w rlen = ((0, 0, some e), bp1)) ∧
    (∀ v1 bp1,
       NonStrictI2C.writeThenRead bp (2 * addr.baseAddr :: regaddr :: w) 0 =
         (Except.ok v1, bp1) →
       (∀ e bp2,
          NonStrictI2C.writeThenRead bp1 [2 * addr.baseAddr ||| 1] rlen =
            (Except.error e, bp2) →
          NonStrictI2C.Transact8x8 bp addr regaddr w rlen = ((0, 0, some e), bp2)) ∧
       (∀ v2 bp2,
          NonStrictI2C.writeThenRead bp1 [2 * addr.baseAddr ||| 1] rlen =
            (Except.ok v2, bp2) →
          NonStrictI2C.Transact8x8 bp addr regaddr w rlen =
            ((w.length, rlen, none), bp2) ∧
          bp2.c.written = bp.c.written ++
            [[0x08, (w.length + 2) / 256 % 256, (w.length + 2) % 256, 0, 0],
             2 * addr.baseAddr :: regaddr :: w,
             [0x08, 0, 1, rlen / 256 % 256, rlen % 256],
             [2 * addr.baseAddr ||| 1]])) := by
  have hmod : addr.baseAddr % 256 = addr.baseAddr := Nat.mod_eq_of_lt (by omega)
  have h2 : addr.baseAddr % 256 * 2 % 256 = 2 * addr.baseAddr := by
    rw [hmod, Nat.mul_comm]
    exact Nat.mod_eq_of_lt (by omega)
  have h3 : addr.baseAddr * 2 % 256 = 2 * addr.baseAddr := by
    rw [Nat.mul_comm]
    exact Nat.mod_eq_of_lt (by omega)
  have htr : NonStrictI2C.Transact8x8 bp addr regaddr w rlen =
      (match NonStrictI2C.writeThenRead bp (2 * addr.baseAddr :: regaddr :: w) 0 with
       | (Except.error e, bp1) => ((0, 0, some e), bp1)
       | (Except.ok _, bp1) =>
         match NonStrictI2C.writeThenRead bp1 [2 * addr.baseAddr ||| 1] rlen with
         | (Except.error e, bp2) => ((0, 0, some e), bp2)
         | (Except.ok _, bp2) => ((w.length, rlen, none), bp2)) := by
    unfold NonStrictI2C.Transact8x8
    rw [if_neg (by simp [hm] : ¬ bp.mode ≠ MODE_I2C),
        if_neg (by simp [h7] : ¬ addr.addrLen ≠ 7),
        if_neg (by omega : ¬ w.length > 4096 - 1),
        if_neg (by omega : ¬ rlen > 4096),
        h2, h3]
  refine ⟨?_, ?_⟩
  · intro e bp1 h1
    rw [htr, h1]
  · intro v1 bp1 h1
    have hwb1 : ¬ (2 * addr.baseAddr :: regaddr :: w).length > 4096 := by
      intro hgt
      rw [wtr_bounds_aux bp _ 0 (Or.inl hgt)] at h1
      simp at h1
    have hw1 := wtr_writes_aux bp (2 * addr.baseAddr :: regaddr :: w) 0 hwf hwb1
      (by omega)
    rw [h1] at hw1
    simp only at hw1
    refine ⟨?_, ?_⟩
    · intro e bp2 hh2
      rw [htr, h1]
      dsimp only
      rw [hh2]
    · intro v2 bp2 hh2
      have hwb2 : ¬ ([2 * addr.baseAddr ||| 1] : List Nat).length > 4096 := by simp
      have hw2 := wtr_writes_aux bp1 [2 * addr.baseAddr ||| 1] rlen hw1.2.1 hwb2
        (by omega)
      rw [hh2] at hw2
      simp only at hw2
      refine ⟨by rw [htr, h1]; dsimp only; rw [hh2], ?_⟩
      rw [hw2.1, hw1.1]
      simp [List.append_assoc]

/-- The concrete session of the spec example: I2C mode, both frames ACKed,
four data bytes readable. -/
def bpT : BusPirate :=
  ⟨⟨[.data [1], .data [1], .data [9, 8, 7, 6]], [], [], []⟩, MODE_I2C, 1⟩

/-- C9 witness: address 0x50, register 0x10, two payload bytes, read of 4 -
frame 1 is header [08 00 04 00 00] and payload [A0 10 AA BB], frame 2 is
header [08 00 01 00 04] and payload [A1]; the call returns (2, 4, no error). -/
theorem transact8x8_two_frames_witness :
    NonStrictI2C.Transact8x8 bpT ⟨7, 0x50⟩ 0x10 [0xAA, 0xBB] 4 =
      ((2, 4, none),
       (NonStrictI2C.writeThenRead
         (NonStrictI2C.writeThenRead bpT (2 * 0x50 :: 0x10 :: [0xAA, 0xBB]) 0).2
         [2 * 0x50 ||| 1] 4).2) ∧
    (NonStrictI2C.Transact8x8 bpT ⟨7, 0x50⟩ 0x10 [0xAA, 0xBB] 4).2.c.written =
      [[0x08, 0, 4, 0, 0], [0xA0, 0x10, 0xAA, 0xBB], [0x08, 0, 1, 0, 4], [0xA1]] := by
  have h := transact8x8_two_frames bpT ⟨7, 0x50⟩ 0x10 [0xAA, 0xBB] 4 rfl rfl
    (by decide) (by decide) (by decide) rfl
  have h2 := (h.2 []
    (NonStrictI2C.writeThenRead bpT (2 * 0x50 :: 0x10 :: [0xAA, 0xBB]) 0).2
    (by decide)).2 [9, 8, 7, 6]
    (NonStrictI2C.writeThenRead
      (NonStrictI2C.writeThenRead bpT (2 * 0x50 :: 0x10 :: [0xAA, 0xBB]) 0).2
      [2 * 0x50 ||| 1] 4).2
    (by decide)
  exact ⟨h2.1, by rw [h2.1]; decide⟩

/-! ## C10 -/

/-- C10: a Close that succeeds on a session in I2C mode (version 1) leaves
the stored mode untouched: GetMode still returns (MODE_I2C, 1) - neither the
implicit EnterBitbangMode nor Close itself updates the stored mode on
success. -/
theorem close_success_mode_still_i2c (bp : BusPirate)
    (hm : bp.mode = MODE_I2C) (hv : bp.modeversion = 1)
    (hok : (bp.Close).1 = Except.ok ()) :
    (bp.Close).2.GetMode = (MODE_I2C, 1) := by
  have hu : ¬ bp.mode = MODE_UNKNOWN := by rw [hm]; decide
  have hb : bp.mode ≠ MODE_BITBANG := by rw [hm]; decide
  unfold BusPirate.Close at hok ⊢
  rw [if_neg hu, if_pos hb] at hok ⊢
  rcases hE : bp.EnterBitbangMode with ⟨r1, bp1⟩
  rw [hE] at hok
  rcases enterBitbang_mode_after bp with ⟨hok1, hmode1, hver1⟩ | ⟨⟨e, herr⟩, _⟩
  · rw [hE] at hok1 hmode1 hver1
    simp only at hok1 hmode1 hver1
    subst hok1
    dsimp only at hok ⊢
    rcases hX : bp1.exchangeByte 0x0f with ⟨r2, bp2⟩
    rw [hX] at hok
    have hx := exchangeByte_run bp1 0x0f
    rw [hX] at hx
    simp only at hx
    rcases r2 with e2 | r2
    · dsimp only at hok
      exact absurd hok (by simp)
    · dsimp only at hok ⊢
      by_cases hr : r2 ≠ 0x01
      · rw [if_pos hr] at hok
        exact absurd hok (by simp)
      · rw [if_neg hr] at hok ⊢
        dsimp only [BusPirate.GetMode]
        rw [hx.2.1, hx.2.2, hmode1, hver1, hm, hv]
  · rw [hE] at herr
    simp only at herr
    subst herr
    dsimp only at hok
    exact absurd hok (by simp)

/-- C10 witness: concrete I2C session whose Close succeeds (EnterBitbangMode
answers BBIO1, exit exchange answers 0x01); GetMode still reads (I2C, 1). -/
theorem close_success_mode_still_i2c_witness :
    (BusPirate.Close ⟨⟨[.data bbio1, .data [1]], [], [], []⟩, MODE_I2C, 1⟩).2.GetMode =
      (MODE_I2C, 1) :=
  close_success_mode_still_i2c ⟨⟨[.data bbio1, .data [1]], [], [], []⟩, MODE_I2C, 1⟩
    rfl rfl (by decide)

end BP
